import Mathlib

/-!
Shallow embedding of the DenoGenesis simple performance test suite
(src/performanceTest.ts) and verification of its specification claims.

The embedding translates the measurement and aggregation core:
* `PerformanceMetric` — the per-request sample record (lines 7–14);
* `testSingleRequest` — the prober with its try/catch structure (lines 109–148),
  parameterized by an explicit fetch outcome and an explicit clock trace;
* `selectRandomEndpoint` — weighted endpoint selection (lines 153–166),
  parameterized by the catalog and the random draw;
* `generateReport` — summary statistics, endpoint breakdown and
  recommendations (lines 366–487);
* the progress-reporting schedule of the fixed-count benchmark loop
  (lines 228–239).

JavaScript numbers are modelled as exact rationals (`ℚ`); `Array.sort` with a
numeric comparator is modelled by an ascending sort; JavaScript object keys
(insertion ordered) are modelled by a first-occurrence key list.
-/

namespace PerfTest

/-- One observation of a single request (interface `PerformanceMetric`,
lines 7–14). -/
structure PerformanceMetric where
  endpoint : String
  method : String
  responseTime : ℚ
  statusCode : ℕ
  contentLength : ℕ
  timestamp : ℤ
deriving DecidableEq

/-- The success predicate used throughout the source:
`statusCode >= 200 && statusCode < 400` (lines 335, 339, 372, 401). -/
def isSuccess (r : PerformanceMetric) : Bool :=
  decide (200 ≤ r.statusCode ∧ r.statusCode < 400)

/-- Ascending numeric sort, embedding `.sort((a, b) => a - b)`
(lines 373, 408). -/
def sortAsc (l : List ℚ) : List ℚ :=
  l.insertionSort (· ≤ ·)

/-- Embedding of `arr.reduce((sum, x) => sum + x, 0)` over rationals. -/
def sumQ (l : List ℚ) : ℚ :=
  l.foldl (· + ·) 0

/-- The percentile index `Math.floor(n * p)` (lines 382–384, 409, 447). -/
def pctIndex (n : ℕ) (p : ℚ) : ℕ :=
  Nat.floor ((n : ℚ) * p)

/-- Embedding of `Math.min(...xs)` over a non-empty list (line 430); the `[]` branch is
unreachable in the source (it is guarded by the no-successful-samples check). -/
def listMin : List ℚ → ℚ
  | [] => 0
  | x :: xs => xs.foldl min x

/-- Embedding of `Math.max(...xs)` over a non-empty list (line 431). -/
def listMax : List ℚ → ℚ
  | [] => 0
  | x :: xs => xs.foldl max x

/-! ### The prober (`testSingleRequest`, lines 109–148) -/

/-- Outcome of the `fetch` call and the subsequent `response.text()` read:
the fetch promise may reject (transport failure), the body read may reject,
or both may succeed. -/
inductive FetchOutcome where
  | netError
  | bodyError (status : ℕ)
  | success (status : ℕ) (body : String)
deriving DecidableEq

/-- The wall-clock instants relevant to one probe: `tStart` is
`performance.now()` at dispatch (line 110), `tResolve` is the instant the
fetch promise settles (resolves or rejects), `tBody` is the instant the body
read settles, and `now` is the `Date.now()` value stamped on the sample. -/
structure ProbeClock where
  tStart : ℚ
  tResolve : ℚ
  tBody : ℚ
  now : ℤ
deriving DecidableEq

/-- The `try` block of `testSingleRequest` (lines 112–136): on a fetch
rejection or a body-read rejection the control transfers to `catch`
(modelled as `Except.error`); otherwise it returns the sample whose
`responseTime` was computed at line 122–123, note: before the body is read
at line 126. -/
def tryRequest (endpoint method : String) (o : FetchOutcome) (c : ProbeClock) :
    Except Unit PerformanceMetric :=
  match o with
  | .netError => .error ()
  | .bodyError _ => .error ()
  | .success status body =>
      .ok { endpoint := endpoint, method := method
            responseTime := c.tResolve - c.tStart
            statusCode := status
            contentLength := body.length
            timestamp := c.now }

/-- The instant at which the `catch` block samples `performance.now()`
(line 138): the fetch rejection instant on a transport failure, the body
settle instant when `response.text()` rejects. -/
def catchClock (o : FetchOutcome) (c : ProbeClock) : ℚ :=
  match o with
  | .netError => c.tResolve
  | .bodyError _ => c.tBody
  | .success _ _ => c.tBody

/-- Embedding of `testSingleRequest` (lines 109–148): the try block, with the catch
handler (lines 137–147) converting any failure into a sentinel sample with
`statusCode = 0` and `contentLength = 0`. -/
def testSingleRequest (endpoint method : String) (o : FetchOutcome) (c : ProbeClock) :
    PerformanceMetric :=
  match tryRequest endpoint method o c with
  | .ok m => m
  | .error _ =>
      { endpoint := endpoint, method := method
        responseTime := catchClock o c - c.tStart
        statusCode := 0
        contentLength := 0
        timestamp := c.now }

/-- Holds exactly on the outcomes that transfer control to the `catch`
handler. -/
def isFailureOutcome (o : FetchOutcome) : Bool :=
  match o with
  | .success _ _ => false
  | _ => true

/-! ### Weighted endpoint selection (lines 49–67 and 153–166) -/

/-- A catalog entry (the endpoint object literals of `getTestEndpoints`). -/
structure Endpoint where
  path : String
  method : String
  weight : ℚ
  descr : String
deriving DecidableEq

/-- Embedding of `endpoints.reduce((sum, ep) => sum + ep.weight, 0)` (line 155). -/
def totalWeight (catalog : List Endpoint) : ℚ :=
  catalog.foldl (fun s e => s + e.weight) 0

/-- The `for (const endpoint of endpoints)` walk of lines 158–163:
`random -= endpoint.weight; if (random <= 0) return endpoint`. -/
def selectLoop (draw : ℚ) : List Endpoint → Option Endpoint
  | [] => none
  | e :: rest => if draw - e.weight ≤ 0 then some e else selectLoop (draw - e.weight) rest

/-- Embedding of `selectRandomEndpoint` (lines 153–166), parameterized by the catalog and
by the already-drawn random value `draw = Math.random() * totalWeight`;
line 165 falls back to `endpoints[0]`. -/
def selectRandomEndpoint (catalog : List Endpoint) (draw : ℚ) : Option Endpoint :=
  match selectLoop draw catalog with
  | some e => some e
  | none => catalog.head?

/-- The default catalog `getTestEndpoints` (lines 49–67). -/
def getTestEndpoints : List Endpoint :=
  [ ⟨"/", "GET", 20, "Home page (Static)"⟩,
    ⟨"/api/analytics", "GET", 15, "Analytics data"⟩,
    ⟨"/api/blogs", "GET", 15, "Blog content API"⟩,
    ⟨"/api/projects", "GET", 15, "Projects portfolio API"⟩,
    ⟨"/api/settings", "GET", 15, "Settings API"⟩,
    ⟨"/api/roadmap", "GET", 10, "Product roadmap API"⟩,
    ⟨"/api/system", "GET", 3, "System information"⟩,
    ⟨"/api/appointments", "GET", 6, "Appointments API (Protected)"⟩,
    ⟨"/api/contact", "GET", 4, "Contact form API (Protected)"⟩,
    ⟨"/health", "GET", 10, "Health check endpoint"⟩ ]

/-! ### Progress reporting of the fixed-count benchmark (lines 228–239) -/

/-- Embedding of `const progressInterval = Math.max(1, Math.floor(requests / 10))`
(line 228). -/
def progressInterval (requests : ℕ) : ℕ :=
  max 1 (requests / 10)

/-- The 1-based iteration indices at which the benchmark loop of lines
230–243 prints a progress line: iteration `i` (0-based) reports when
`(i + 1) % progressInterval === 0` (line 235). -/
def progressIterations (requests : ℕ) : List ℕ :=
  (List.range requests).filterMap fun i =>
    if (i + 1) % progressInterval requests = 0 then some (i + 1) else none

/-! ### Report generation (lines 366–487) -/

/-- Per-endpoint entry of `endpointBreakdown` (lines 28–33, 411–416). -/
structure EndpointStats where
  requests : ℕ
  avgResponseTime : ℚ
  p95ResponseTime : ℚ
  successRate : ℚ
deriving DecidableEq

/-- The `summary` block of `PerformanceReport` (lines 17–27, 424–434). -/
structure ReportSummary where
  totalRequests : ℕ
  averageResponseTime : ℚ
  p50ResponseTime : ℚ
  p95ResponseTime : ℚ
  p99ResponseTime : ℚ
  minResponseTime : ℚ
  maxResponseTime : ℚ
  successRate : ℚ
  errorRate : ℚ
deriving DecidableEq

/-- The report object `PerformanceReport` (lines 16–36); the breakdown record is modelled as an
insertion-ordered association list. -/
structure PerformanceReport where
  summary : ReportSummary
  endpointBreakdown : List (String × EndpointStats)
  timeSeriesData : List PerformanceMetric
  recommendations : List String
deriving DecidableEq

/-- The recommendation strings of lines 450–484. -/
def recAvgExcellent : String :=
  "🏆 EXCELLENT: Average response time under 50ms - world-class performance!"

def recAvgGood : String :=
  "✅ GOOD: Average response time under 100ms - great user experience"

def recAvgFair : String :=
  "⚠️  FAIR: Consider optimizing database queries and caching"

def recAvgNeedsImprovement : String :=
  "❌ NEEDS IMPROVEMENT: Response times over 200ms may impact user experience"

def recP95Consistent : String :=
  "🚀 95% of requests served under 100ms - consistent performance"

def recP95GoodConsistency : String :=
  "📊 95th percentile under 200ms - good consistency"

def recP95Bottleneck : String :=
  "🔧 High P95 response time suggests performance bottlenecks"

def recSuccessOutstanding : String :=
  "💪 OUTSTANDING: 99.9%+ success rate - extremely reliable"

def recSuccessExcellent : String :=
  "✅ EXCELLENT: 99%+ success rate - very reliable"

def recSuccessGood : String :=
  "⚠️  GOOD: 95%+ success rate - monitor error patterns"

def recSuccessInvestigate : String :=
  "❌ INVESTIGATE: Success rate below 95% - check error logs"

def recCambridge : String :=
  "🎓 CAMBRIDGE VALIDATION: Local-first architecture demonstrates superior performance"

def recCompetitive : String :=
  "⚡ COMPETITIVE ADVANTAGE: 5-20x faster than typical cloud solutions"

/-- Embedding of `generateRecommendations(responseTimes, successRate)` (lines 444–487):
`responseTimes` is the ascending-sorted list of successful response times
and `successRate` is the fraction `successful / total` (not in percent).
Each `recommendations.push(...)` chain is an if/else ladder, modelled as the
concatenation of its four blocks. -/
def generateRecommendations (responseTimes : List ℚ) (successRate : ℚ) : List String :=
  let avgResponseTime := sumQ responseTimes / (responseTimes.length : ℚ)
  let p95ResponseTime := responseTimes.getD (pctIndex responseTimes.length 0.95) 0
  (if avgResponseTime < 50 then [recAvgExcellent]
   else if avgResponseTime < 100 then [recAvgGood]
   else if avgResponseTime < 200 then [recAvgFair]
   else [recAvgNeedsImprovement]) ++
  (if p95ResponseTime < 100 then [recP95Consistent]
   else if p95ResponseTime < 200 then [recP95GoodConsistency]
   else [recP95Bottleneck]) ++
  (if successRate ≥ 0.999 then [recSuccessOutstanding]
   else if successRate ≥ 0.99 then [recSuccessExcellent]
   else if successRate ≥ 0.95 then [recSuccessGood]
   else [recSuccessInvestigate]) ++
  (if avgResponseTime < 100 ∧ successRate > 0.99 then [recCambridge, recCompetitive]
   else [])

/-- Embedding of `this.results.filter(r => r.statusCode >= 200 && r.statusCode < 400)`
(line 372). -/
def successfulRequests (results : List PerformanceMetric) : List PerformanceMetric :=
  results.filter isSuccess

/-- Embedding of `successfulRequests.map(r => r.responseTime).sort((a, b) => a - b)`
(line 373). -/
def sortedResponseTimes (results : List PerformanceMetric) : List ℚ :=
  sortAsc ((successfulRequests results).map (·.responseTime))

/-- Appends a key to the accumulator unless already present: one step of
building the insertion-ordered `endpointStats` record of lines 389–404. -/
def insertKey (acc : List String) (s : String) : List String :=
  if s ∈ acc then acc else acc ++ [s]

/-- The keys of the `endpointStats` record, in first-occurrence order
(the loop of lines 389–404 creates one record entry per distinct
`result.endpoint`). -/
def endpointKeys (results : List PerformanceMetric) : List String :=
  results.foldl (fun acc r => insertKey acc r.endpoint) []

/-- The samples accumulated under one `endpointStats` key: the loop pushes
every sample (success or failure) whose `endpoint` field equals the key. -/
def endpointGroup (results : List PerformanceMetric) (k : String) : List PerformanceMetric :=
  results.filter (fun r => r.endpoint == k)

/-- The breakdown entry computed for one key by lines 407–417. -/
def endpointStatsOf (results : List PerformanceMetric) (k : String) : EndpointStats :=
  let group := endpointGroup results k
  let times := sortAsc (group.map (·.responseTime))
  { requests := group.length
    avgResponseTime := sumQ times / (times.length : ℚ)
    p95ResponseTime := times.getD (pctIndex times.length 0.95) 0
    successRate := (((group.filter isSuccess).length : ℚ) / (group.length : ℚ)) * 100 }

/-- Message of `throw new Error` at line 368: the empty-result error. -/
def emptyResultError : String := "No test results available"

/-- Message of `throw new Error` at line 376: the no-successful-samples error. -/
def noSuccessError : String := "No successful requests for analysis"

/-- The report value built by lines 379–438 once both guards have passed. -/
def buildReport (results : List PerformanceMetric) : PerformanceReport :=
  let responseTimes := sortedResponseTimes results
  let totalRequests := results.length
  let successCount := (successfulRequests results).length
  let successRate := (successCount : ℚ) / (totalRequests : ℚ)
  { summary :=
      { totalRequests := totalRequests
        averageResponseTime := sumQ responseTimes / (responseTimes.length : ℚ)
        p50ResponseTime := responseTimes.getD (pctIndex responseTimes.length 0.5) 0
        p95ResponseTime := responseTimes.getD (pctIndex responseTimes.length 0.95) 0
        p99ResponseTime := responseTimes.getD (pctIndex responseTimes.length 0.99) 0
        minResponseTime := listMin responseTimes
        maxResponseTime := listMax responseTimes
        successRate := successRate * 100
        errorRate := ((totalRequests - successCount : ℕ) : ℚ) / (totalRequests : ℚ) * 100 }
    endpointBreakdown := (endpointKeys results).map fun k => (k, endpointStatsOf results k)
    timeSeriesData := results
    recommendations := generateRecommendations responseTimes successRate }

/-- Embedding of `generateReport` (lines 366–439): the two thrown errors are modelled as
`Except.error` on the corresponding message. -/
def generateReport (results : List PerformanceMetric) : Except String PerformanceReport :=
  if results.length = 0 then .error emptyResultError
  else if (sortedResponseTimes results).length = 0 then .error noSuccessError
  else .ok (buildReport results)

/-! ### Concrete sample sets used by the spec's worked examples -/

/-- A sample with the given endpoint, response time and status; the
remaining fields are irrelevant to report generation. -/
def sample (endpoint : String) (time : ℚ) (status : ℕ) : PerformanceMetric :=
  { endpoint := endpoint, method := "GET", responseTime := time
    statusCode := status, contentLength := 0, timestamp := 0 }

/-- Five successful samples whose sorted times are `[10, 20, 30, 40, 50]`
(given unsorted, to exercise the sort). -/
def ex5 : List PerformanceMetric :=
  [sample "/" 30 200, sample "/" 10 200, sample "/" 50 200,
   sample "/" 20 200, sample "/" 40 200]

/-- Eight `status 200, 10ms` samples plus two `status 500, 10ms` samples on
one endpoint. -/
def ex10 : List PerformanceMetric :=
  List.replicate 8 (sample "/" 10 200) ++ List.replicate 2 (sample "/" 10 500)

/-! ### Helper lemmas -/

theorem foldl_add_eq (l : List ℚ) : ∀ a : ℚ, l.foldl (· + ·) a = a + l.sum := by
  induction l with
  | nil => intro a; simp
  | cons x xs ih => intro a; simp [List.foldl_cons, ih, List.sum_cons]; ring

theorem sumQ_eq_sum (l : List ℚ) : sumQ l = l.sum := by
  simp [sumQ, foldl_add_eq]

theorem sortAsc_perm (l : List ℚ) : List.Perm (sortAsc l) l :=
  List.perm_insertionSort _ l

theorem length_sortAsc (l : List ℚ) : (sortAsc l).length = l.length := by
  simp [sortAsc]

theorem mem_sortAsc {a : ℚ} {l : List ℚ} : a ∈ sortAsc l ↔ a ∈ l :=
  (sortAsc_perm l).mem_iff

theorem sumQ_sortAsc (l : List ℚ) : sumQ (sortAsc l) = sumQ l := by
  rw [sumQ_eq_sum, sumQ_eq_sum]
  exact (sortAsc_perm l).sum_eq

theorem sortAsc_sorted (l : List ℚ) : (sortAsc l).Sorted (· ≤ ·) :=
  List.sorted_insertionSort _ l

theorem getD_mem {l : List ℚ} {i : ℕ} (h : i < l.length) (d : ℚ) : l.getD i d ∈ l := by
  rw [List.getD_eq_getElem?_getD, List.getElem?_eq_getElem h]
  exact List.getElem_mem h

theorem foldl_min_le_init (l : List ℚ) : ∀ a : ℚ, l.foldl min a ≤ a := by
  induction l with
  | nil => intro a; simp
  | cons x xs ih =>
    intro a
    calc xs.foldl min (min a x) ≤ min a x := ih (min a x)
      _ ≤ a := min_le_left _ _

theorem foldl_min_le_mem (l : List ℚ) : ∀ a : ℚ, ∀ x ∈ l, l.foldl min a ≤ x := by
  induction l with
  | nil => intro a x hx; simp at hx
  | cons y ys ih =>
    intro a x hx
    rcases List.mem_cons.mp hx with rfl | hx
    · calc ys.foldl min (min a x) ≤ min a x := foldl_min_le_init ys (min a x)
        _ ≤ x := min_le_right _ _
    · exact ih (min a y) x hx

theorem foldl_min_mem (l : List ℚ) : ∀ a : ℚ, l.foldl min a = a ∨ l.foldl min a ∈ l := by
  induction l with
  | nil => intro a; left; rfl
  | cons x xs ih =>
    intro a
    rcases ih (min a x) with h | h
    · rcases min_choice a x with hc | hc
      · left; rw [List.foldl_cons, h, hc]
      · right; rw [List.foldl_cons, h, hc]; exact List.mem_cons_self _ _
    · right; exact List.mem_cons_of_mem _ h

theorem foldl_max_init_le (l : List ℚ) : ∀ a : ℚ, a ≤ l.foldl max a := by
  induction l with
  | nil => intro a; simp
  | cons x xs ih =>
    intro a
    calc a ≤ max a x := le_max_left _ _
      _ ≤ xs.foldl max (max a x) := ih (max a x)

theorem foldl_max_mem_le (l : List ℚ) : ∀ a : ℚ, ∀ x ∈ l, x ≤ l.foldl max a := by
  induction l with
  | nil => intro a x hx; simp at hx
  | cons y ys ih =>
    intro a x hx
    rcases List.mem_cons.mp hx with rfl | hx
    · calc x ≤ max a x := le_max_right _ _
        _ ≤ ys.foldl max (max a x) := foldl_max_init_le ys (max a x)
    · exact ih (max a y) x hx

theorem foldl_max_mem (l : List ℚ) : ∀ a : ℚ, l.foldl max a = a ∨ l.foldl max a ∈ l := by
  induction l with
  | nil => intro a; left; rfl
  | cons x xs ih =>
    intro a
    rcases ih (max a x) with h | h
    · rcases max_choice a x with hc | hc
      · left; rw [List.foldl_cons, h, hc]
      · right; rw [List.foldl_cons, h, hc]; exact List.mem_cons_self _ _
    · right; exact List.mem_cons_of_mem _ h

theorem listMin_mem {l : List ℚ} (h : l ≠ []) : listMin l ∈ l := by
  cases l with
  | nil => exact absurd rfl h
  | cons x xs =>
    rcases foldl_min_mem xs x with h0 | h0
    · rw [listMin, h0]; exact List.mem_cons_self _ _
    · exact List.mem_cons_of_mem _ (by rw [listMin]; exact h0)

theorem listMin_le {l : List ℚ} : ∀ x ∈ l, listMin l ≤ x := by
  cases l with
  | nil => intro x hx; simp at hx
  | cons y ys =>
    intro x hx
    rcases List.mem_cons.mp hx with rfl | hx
    · exact foldl_min_le_init ys x
    · exact foldl_min_le_mem ys y x hx

theorem listMax_mem {l : List ℚ} (h : l ≠ []) : listMax l ∈ l := by
  cases l with
  | nil => exact absurd rfl h
  | cons x xs =>
    rcases foldl_max_mem xs x with h0 | h0
    · rw [listMax, h0]; exact List.mem_cons_self _ _
    · exact List.mem_cons_of_mem _ (by rw [listMax]; exact h0)

theorem le_listMax {l : List ℚ} : ∀ x ∈ l, x ≤ listMax l := by
  cases l with
  | nil => intro x hx; simp at hx
  | cons y ys =>
    intro x hx
    rcases List.mem_cons.mp hx with rfl | hx
    · exact foldl_max_init_le ys x
    · exact foldl_max_mem_le ys y x hx

theorem pctIndex_lt {n : ℕ} {p : ℚ} (hp0 : 0 ≤ p) (hp1 : p < 1) (hn : 1 ≤ n) :
    pctIndex n p < n := by
  have hn' : (0 : ℚ) < n := by exact_mod_cast Nat.lt_of_lt_of_le Nat.zero_lt_one hn
  have h0 : (0 : ℚ) ≤ (n : ℚ) * p := mul_nonneg (le_of_lt hn') hp0
  rw [pctIndex, Nat.floor_lt h0]
  calc (n : ℚ) * p < (n : ℚ) * 1 := mul_lt_mul_of_pos_left hp1 hn'
    _ = n := mul_one _

theorem length_sortedResponseTimes (results : List PerformanceMetric) :
    (sortedResponseTimes results).length = (successfulRequests results).length := by
  simp [sortedResponseTimes, length_sortAsc]

theorem generateReport_ok (results : List PerformanceMetric)
    (h : 0 < (successfulRequests results).length) :
    generateReport results = .ok (buildReport results) := by
  have hle : (successfulRequests results).length ≤ results.length :=
    List.length_filter_le _ results
  have h1 : ¬ results.length = 0 := by omega
  have h2 : ¬ (sortedResponseTimes results).length = 0 := by
    rw [length_sortedResponseTimes]; omega
  simp [generateReport, h1, h2]

theorem mem_insertKey {acc : List String} {t s : String} :
    s ∈ insertKey acc t ↔ s ∈ acc ∨ s = t := by
  by_cases h : t ∈ acc
  · rw [insertKey, if_pos h]
    constructor
    · exact Or.inl
    · rintro (hs | rfl)
      · exact hs
      · exact h
  · rw [insertKey, if_neg h]
    simp [List.mem_append]

theorem insertKey_nodup {acc : List String} {t : String} (h : acc.Nodup) :
    (insertKey acc t).Nodup := by
  by_cases ht : t ∈ acc
  · rw [insertKey, if_pos ht]; exact h
  · rw [insertKey, if_neg ht]
    simp [List.nodup_append, h, ht]

theorem foldl_insertKey_mem (l : List PerformanceMetric) :
    ∀ (acc : List String) (s : String),
      (s ∈ l.foldl (fun a r => insertKey a r.endpoint) acc ↔
        s ∈ acc ∨ ∃ r ∈ l, r.endpoint = s) := by
  induction l with
  | nil => intro acc s; simp
  | cons r rs ih =>
    intro acc s
    rw [List.foldl_cons, ih, mem_insertKey]
    constructor
    · rintro ((hs | rfl) | ⟨x, hx, rfl⟩)
      · exact Or.inl hs
      · exact Or.inr ⟨r, List.mem_cons_self _ _, rfl⟩
      · exact Or.inr ⟨x, List.mem_cons_of_mem _ hx, rfl⟩
    · rintro (hs | ⟨x, hx, rfl⟩)
      · exact Or.inl (Or.inl hs)
      · rcases List.mem_cons.mp hx with rfl | hx
        · exact Or.inl (Or.inr rfl)
        · exact Or.inr ⟨x, hx, rfl⟩

theorem mem_endpointKeys {results : List PerformanceMetric} {s : String} :
    s ∈ endpointKeys results ↔ ∃ r ∈ results, r.endpoint = s := by
  rw [endpointKeys, foldl_insertKey_mem]
  simp

theorem foldl_insertKey_nodup (l : List PerformanceMetric) :
    ∀ acc : List String, acc.Nodup →
      (l.foldl (fun a r => insertKey a r.endpoint) acc).Nodup := by
  induction l with
  | nil => intro acc h; exact h
  | cons r rs ih =>
    intro acc h
    rw [List.foldl_cons]
    exact ih _ (insertKey_nodup h)

theorem endpointKeys_nodup (results : List PerformanceMetric) :
    (endpointKeys results).Nodup :=
  foldl_insertKey_nodup results [] List.nodup_nil

theorem endpointGroup_length_pos {results : List PerformanceMetric} {k : String}
    (h : k ∈ endpointKeys results) : 0 < (endpointGroup results k).length := by
  obtain ⟨r, hr, hk⟩ := mem_endpointKeys.mp h
  have : r ∈ endpointGroup results k :=
    List.mem_filter.mpr ⟨hr, by simp [hk]⟩
  exact List.length_pos.mpr (List.ne_nil_of_mem this)

theorem sum_ite_one_of_mem (ks : List String) (s : String) :
    ks.Nodup → s ∈ ks →
      (ks.map fun k => if s = k then 1 else 0).sum = 1 := by
  induction ks with
  | nil => intro _ h; simp at h
  | cons k rest ih =>
    intro hnd hs
    have hnd' : rest.Nodup := (List.nodup_cons.mp hnd).2
    by_cases he : s = k
    · subst he
      have hnot : s ∉ rest := (List.nodup_cons.mp hnd).1
      have hz : (rest.map fun j => if s = j then 1 else 0).sum = 0 := by
        have : ∀ j ∈ rest, (if s = j then 1 else 0) = 0 := by
          intro j hj
          have : ¬ s = j := fun hh => hnot (hh ▸ hj)
          simp [this]
        calc (rest.map fun j => if s = j then 1 else 0).sum
            = (rest.map fun _ => (0 : ℕ)).sum := by
              rw [List.map_congr_left this]
          _ = 0 := by simp
      simp [hz]
    · have hs' : s ∈ rest := by
        rcases List.mem_cons.mp hs with rfl | h
        · exact absurd rfl he
        · exact h
      simp [List.map_cons, List.sum_cons, he, ih hnd' hs']

theorem sum_map_add_nat {α : Type} (l : List α) (f g : α → ℕ) :
    (l.map fun x => f x + g x).sum = (l.map f).sum + (l.map g).sum := by
  induction l with
  | nil => simp
  | cons x xs ih =>
    simp only [List.map_cons, List.sum_cons, ih]
    omega

theorem sum_group_lengths (ks : List String) (hnd : ks.Nodup) :
    ∀ l : List PerformanceMetric, (∀ r ∈ l, r.endpoint ∈ ks) →
      (ks.map fun k => (endpointGroup l k).length).sum = l.length := by
  intro l
  induction l with
  | nil =>
    intro _
    have : ∀ k ∈ ks, (endpointGroup ([] : List PerformanceMetric) k).length = 0 := by
      intro k _; simp [endpointGroup]
    calc (ks.map fun k => (endpointGroup ([] : List PerformanceMetric) k).length).sum
        = (ks.map fun _ => (0 : ℕ)).sum := by rw [List.map_congr_left this]
      _ = 0 := by simp
  | cons r rs ih =>
    intro hcov
    have hcov' : ∀ x ∈ rs, x.endpoint ∈ ks := fun x hx =>
      hcov x (List.mem_cons_of_mem _ hx)
    have step : ∀ k ∈ ks, (endpointGroup (r :: rs) k).length =
        (if r.endpoint = k then 1 else 0) + (endpointGroup rs k).length := by
      intro k _
      rw [endpointGroup, endpointGroup, List.filter_cons]
      by_cases h : r.endpoint = k
      · simp [h]; omega
      · simp [h]
    calc (ks.map fun k => (endpointGroup (r :: rs) k).length).sum
        = (ks.map fun k =>
            (if r.endpoint = k then 1 else 0) + (endpointGroup rs k).length).sum := by
          rw [List.map_congr_left step]
      _ = (ks.map fun k => if r.endpoint = k then 1 else 0).sum +
            (ks.map fun k => (endpointGroup rs k).length).sum := by
          rw [sum_map_add_nat]
      _ = 1 + rs.length := by
          rw [sum_ite_one_of_mem ks r.endpoint hnd (hcov r (List.mem_cons_self _ _)), ih hcov']
      _ = (r :: rs).length := by simp [Nat.add_comm]

theorem foldl_weight_shift (l : List Endpoint) :
    ∀ a : ℚ, l.foldl (fun s e => s + e.weight) a = a + totalWeight l := by
  induction l with
  | nil => intro a; simp [totalWeight]
  | cons e rest ih =>
    intro a
    rw [List.foldl_cons, ih]
    conv_rhs => rw [totalWeight, List.foldl_cons, ih (0 + e.weight)]
    ring

theorem totalWeight_cons (e : Endpoint) (rest : List Endpoint) :
    totalWeight (e :: rest) = e.weight + totalWeight rest := by
  rw [totalWeight, List.foldl_cons, foldl_weight_shift]
  ring

theorem selectLoop_some (catalog : List Endpoint) :
    ∀ draw : ℚ, 0 ≤ draw → draw < totalWeight catalog →
      ∃ e ∈ catalog, selectLoop draw catalog = some e := by
  induction catalog with
  | nil =>
    intro draw h0 hlt
    rw [totalWeight] at hlt
    simp only [List.foldl_nil] at hlt
    exact absurd (lt_of_le_of_lt h0 hlt) (lt_irrefl 0)
  | cons e rest ih =>
    intro draw h0 hlt
    by_cases hc : draw - e.weight ≤ 0
    · refine ⟨e, List.mem_cons_self _ _, ?_⟩
      simp only [selectLoop]
      rw [if_pos hc]
    · push_neg at hc
      have hlt' : draw - e.weight < totalWeight rest := by
        rw [totalWeight_cons] at hlt
        linarith
      obtain ⟨f, hf, hsel⟩ := ih (draw - e.weight) (le_of_lt hc) hlt'
      refine ⟨f, List.mem_cons_of_mem _ hf, ?_⟩
      simp only [selectLoop]
      rw [if_neg (not_le.mpr hc)]
      exact hsel

/-! ### Claim theorems -/

/-- C3: `generateReport` fails with the empty-result error exactly when the
sample set is empty, fails with the distinct no-successful-samples error
exactly when the set is non-empty but has no sample with status in
`[200, 400)`, and otherwise returns a report. -/
theorem generate_error_taxonomy :
    (∀ results : List PerformanceMetric,
      generateReport results = .error emptyResultError ↔ results = []) ∧
    (∀ results : List PerformanceMetric,
      generateReport results = .error noSuccessError ↔
        (results ≠ [] ∧ ∀ r ∈ results, isSuccess r = false)) ∧
    (∀ results : List PerformanceMetric, (∃ r ∈ results, isSuccess r = true) →
      generateReport results = .ok (buildReport results)) ∧
    emptyResultError ≠ noSuccessError := by
  refine ⟨?_, ?_, ?_, by decide⟩
  · intro results
    constructor
    · intro h
      by_cases h1 : results.length = 0
      · exact List.length_eq_zero.mp h1
      · exfalso
        rw [generateReport, if_neg h1] at h
        by_cases h2 : (sortedResponseTimes results).length = 0
        · rw [if_pos h2] at h
          simp only [Except.error.injEq] at h
          exact absurd h (by decide)
        · rw [if_neg h2] at h
          simp at h
    · rintro rfl
      rfl
  · intro results
    constructor
    · intro h
      by_cases h1 : results.length = 0
      · exfalso
        rw [generateReport, if_pos h1] at h
        simp only [Except.error.injEq] at h
        exact absurd h (by decide)
      · by_cases h2 : (sortedResponseTimes results).length = 0
        · refine ⟨fun hnil => h1 (by rw [hnil]; rfl), ?_⟩
          rw [length_sortedResponseTimes] at h2
          have hfil : successfulRequests results = [] := List.length_eq_zero.mp h2
          rw [successfulRequests, List.filter_eq_nil_iff] at hfil
          intro r hr
          simpa using hfil r hr
        · exfalso
          rw [generateReport, if_neg h1, if_neg h2] at h
          simp at h
    · rintro ⟨hne, hall⟩
      have h1 : ¬ results.length = 0 := fun h0 => hne (List.length_eq_zero.mp h0)
      have h2 : (sortedResponseTimes results).length = 0 := by
        rw [length_sortedResponseTimes, successfulRequests, List.length_eq_zero,
          List.filter_eq_nil_iff]
        intro r hr
        simp [hall r hr]
      rw [generateReport, if_neg h1, if_pos h2]
  · intro results ⟨r, hr, hs⟩
    have hmem : r ∈ successfulRequests results := List.mem_filter.mpr ⟨hr, hs⟩
    exact generateReport_ok results (List.length_pos.mpr (List.ne_nil_of_mem hmem))

/-- C3 witness: on the concrete sample set `ex5` (which has a successful
sample) `generateReport` returns a report, and the two error messages are
distinct. -/
theorem generate_error_taxonomy_witness :
    generateReport ex5 = .ok (buildReport ex5) ∧ emptyResultError ≠ noSuccessError :=
  ⟨generate_error_taxonomy.2.2.1 ex5 ⟨sample "/" 30 200, by decide, by decide⟩,
   generate_error_taxonomy.2.2.2⟩

/-- C4: the prober never propagates an error: every invocation returns
exactly one sample, and on any failure outcome (fetch rejection or body-read
rejection) the sample has sentinel `statusCode = 0`, `contentLength = 0`,
and carries the elapsed time from dispatch to the failure instant. -/
theorem probe_never_raises :
    ∀ (endpoint method : String) (o : FetchOutcome) (c : ProbeClock),
      (∃! s : PerformanceMetric, testSingleRequest endpoint method o c = s) ∧
      (isFailureOutcome o = true →
        (testSingleRequest endpoint method o c).statusCode = 0 ∧
        (testSingleRequest endpoint method o c).contentLength = 0 ∧
        (testSingleRequest endpoint method o c).responseTime =
          catchClock o c - c.tStart) := by
  intro endpoint method o c
  refine ⟨⟨testSingleRequest endpoint method o c, rfl, fun y hy => hy.symm⟩, ?_⟩
  intro hfail
  cases o with
  | netError => exact ⟨rfl, rfl, rfl⟩
  | bodyError st => exact ⟨rfl, rfl, rfl⟩
  | success st body => simp [isFailureOutcome] at hfail

/-- C4 witness: a concrete transport failure (`netError` at clock
`⟨0, 5, 5, 0⟩`) yields the sentinel sample with the elapsed time. -/
theorem probe_never_raises_witness :
    (testSingleRequest "/" "GET" .netError ⟨0, 5, 5, 0⟩).statusCode = 0 ∧
    (testSingleRequest "/" "GET" .netError ⟨0, 5, 5, 0⟩).contentLength = 0 ∧
    (testSingleRequest "/" "GET" .netError ⟨0, 5, 5, 0⟩).responseTime =
      catchClock .netError ⟨0, 5, 5, 0⟩ - (ProbeClock.mk 0 5 5 0).tStart :=
  (probe_never_raises "/" "GET" .netError ⟨0, 5, 5, 0⟩).2 rfl

/-- C5 (counterexample): the claim says a successful probe's `responseTime`
spans dispatch to full body materialization. In the code `endTime` is taken
at line 122, before `response.text()` at line 126: with dispatch at 0, fetch
resolution at 5 and body materialization at 9, the claim predicts a recorded
time of 9, but the code records 5. -/
theorem probe_timing_counterexample :
    (ProbeClock.mk 0 5 9 0).tBody - (ProbeClock.mk 0 5 9 0).tStart = 9 ∧
    (testSingleRequest "/" "GET" (.success 200 "ok") ⟨0, 5, 9, 0⟩).responseTime = 5 ∧
    (testSingleRequest "/" "GET" (.success 200 "ok") ⟨0, 5, 9, 0⟩).responseTime ≠ 9 := by
  refine ⟨?_, ?_, ?_⟩ <;> with_unfolding_all decide

/-- C5 (amended): a successful probe's `responseTime` spans from dispatch to
the resolution of the fetch (response headers available), not to body
materialization — the body is read after the timing sample (though its
length is still recorded); on a transport failure the time spans dispatch to
the fetch rejection instant, and on a body-read failure dispatch to the body
failure instant. -/
theorem probe_timing :
    ∀ (endpoint method : String) (status : ℕ) (body : String) (c : ProbeClock),
      (testSingleRequest endpoint method (.success status body) c).responseTime =
        c.tResolve - c.tStart ∧
      (testSingleRequest endpoint method (.success status body) c).contentLength =
        body.length ∧
      (testSingleRequest endpoint method .netError c).responseTime =
        c.tResolve - c.tStart ∧
      (testSingleRequest endpoint method (.bodyError status) c).responseTime =
        c.tBody - c.tStart := by
  intro endpoint method status body c
  exact ⟨rfl, rfl, rfl, rfl⟩

/-- C7: the recommendation list is exactly one first-match message from the
mean ladder, one from the p95 ladder, one from the success-rate ladder, plus
the two affirming messages exactly when mean < 100 and success rate > 99%;
on sorted times `[0, 90]` (mean 45, p95 90) with success rate 100% it is
exactly the five expected strings. -/
theorem recommendation_ladder :
    (∀ (times : List ℚ) (sr : ℚ), ∃ m p s : String,
      generateRecommendations times sr =
        [m, p, s] ++
          (if sumQ times / (times.length : ℚ) < 100 ∧ sr > 0.99 then
            [recCambridge, recCompetitive]
          else []) ∧
      m ∈ [recAvgExcellent, recAvgGood, recAvgFair, recAvgNeedsImprovement] ∧
      p ∈ [recP95Consistent, recP95GoodConsistency, recP95Bottleneck] ∧
      s ∈ [recSuccessOutstanding, recSuccessExcellent, recSuccessGood,
        recSuccessInvestigate]) ∧
    generateRecommendations [0, 90] 1 =
      [recAvgExcellent, recP95Consistent, recSuccessOutstanding, recCambridge,
        recCompetitive] := by
  constructor
  · intro times sr
    simp only [generateRecommendations]
    split_ifs <;>
      exact ⟨_, _, _, rfl, by simp, by simp, by simp⟩
  · with_unfolding_all rfl

/-- C8: for a non-empty catalog the weighted selector never returns no
selection, and for every draw in `[0, totalWeight)` the walk returns an
entry of the catalog. -/
theorem weighted_selection_membership :
    ∀ (catalog : List Endpoint) (draw : ℚ), catalog ≠ [] →
      (selectRandomEndpoint catalog draw).isSome = true ∧
      (0 ≤ draw → draw < totalWeight catalog →
        ∃ e ∈ catalog, selectRandomEndpoint catalog draw = some e) := by
  intro catalog draw hne
  constructor
  · simp only [selectRandomEndpoint]
    cases hsel : selectLoop draw catalog with
    | some e => rfl
    | none =>
      cases catalog with
      | nil => exact absurd rfl hne
      | cons x xs => rfl
  · intro h0 hlt
    obtain ⟨e, he, hsel⟩ := selectLoop_some catalog draw h0 hlt
    refine ⟨e, he, ?_⟩
    simp only [selectRandomEndpoint]
    rw [hsel]

/-- C8 witness: on the concrete default catalog with draw 50 (total weight
113) the selector returns an entry of the catalog. -/
theorem weighted_selection_membership_witness :
    (selectRandomEndpoint getTestEndpoints 50).isSome = true ∧
    ∃ e ∈ getTestEndpoints, selectRandomEndpoint getTestEndpoints 50 = some e :=
  ⟨(weighted_selection_membership getTestEndpoints 50 (by simp [getTestEndpoints])).1,
   (weighted_selection_membership getTestEndpoints 50 (by simp [getTestEndpoints])).2
     (by norm_num) (by with_unfolding_all decide)⟩

/-- C9 (counterexample): the claim says progress is reported exactly at
1-based indices that are multiples of `ceil(count/10)`. For `count = 15`
the code's interval is `max(1, floor(15/10)) = 1`, so iteration 1 reports,
yet 1 is not a multiple of `ceil(15/10) = 2`. -/
theorem progress_schedule_counterexample :
    1 ∈ progressIterations 15 ∧ (15 + 9) / 10 = 2 ∧ ¬ 1 % ((15 + 9) / 10) = 0 := by
  decide

/-- C9 (amended): in the fixed-count sequential benchmark over `count`
requests, progress is reported exactly at the iterations whose 1-based index
is a multiple of `max(1, floor(count/10))`. -/
theorem progress_schedule :
    ∀ requests k : ℕ,
      k ∈ progressIterations requests ↔
        (1 ≤ k ∧ k ≤ requests ∧ k % progressInterval requests = 0) := by
  intro requests k
  rw [progressIterations, List.mem_filterMap]
  constructor
  · rintro ⟨i, hi, hif⟩
    rw [List.mem_range] at hi
    by_cases hc : (i + 1) % progressInterval requests = 0
    · rw [if_pos hc] at hif
      cases hif
      exact ⟨by omega, by omega, hc⟩
    · rw [if_neg hc] at hif
      exact Option.noConfusion hif
  · rintro ⟨h1, h2, h3⟩
    refine ⟨k - 1, ?_, ?_⟩
    · rw [List.mem_range]; omega
    · have hk : k - 1 + 1 = k := by omega
      rw [hk, if_pos h3]

theorem sumQ_sortedResponseTimes (results : List PerformanceMetric) :
    sumQ (sortedResponseTimes results) =
      sumQ ((successfulRequests results).map (·.responseTime)) := by
  simp only [sortedResponseTimes]
  exact sumQ_sortAsc _

theorem mem_sortedResponseTimes {results : List PerformanceMetric} {a : ℚ} :
    a ∈ sortedResponseTimes results ↔
      a ∈ (successfulRequests results).map (·.responseTime) := by
  simp only [sortedResponseTimes]
  exact mem_sortAsc

/-- C1: whenever at least one sample is successful, `generateReport`
succeeds and each summary percentile `p ∈ {0.5, 0.95, 0.99}` is the element
at the in-bounds index `floor(n * p)` of the ascending-sorted successful
response times (no interpolation); on the concrete set whose sorted
successful times are `[10, 20, 30, 40, 50]`, p50 is 30 and p95 is 50. -/
theorem percentile_rank_indexing :
    (∀ results : List PerformanceMetric, 0 < (successfulRequests results).length →
      generateReport results = .ok (buildReport results) ∧
      (sortedResponseTimes results).Sorted (· ≤ ·) ∧
      List.Perm (sortedResponseTimes results)
        ((successfulRequests results).map (·.responseTime)) ∧
      pctIndex (sortedResponseTimes results).length 0.5 <
        (sortedResponseTimes results).length ∧
      pctIndex (sortedResponseTimes results).length 0.95 <
        (sortedResponseTimes results).length ∧
      pctIndex (sortedResponseTimes results).length 0.99 <
        (sortedResponseTimes results).length ∧
      (buildReport results).summary.p50ResponseTime =
        (sortedResponseTimes results).getD
          (pctIndex (sortedResponseTimes results).length 0.5) 0 ∧
      (buildReport results).summary.p95ResponseTime =
        (sortedResponseTimes results).getD
          (pctIndex (sortedResponseTimes results).length 0.95) 0 ∧
      (buildReport results).summary.p99ResponseTime =
        (sortedResponseTimes results).getD
          (pctIndex (sortedResponseTimes results).length 0.99) 0) ∧
    (sortedResponseTimes ex5 = [10, 20, 30, 40, 50] ∧
      (buildReport ex5).summary.p50ResponseTime = 30 ∧
      (buildReport ex5).summary.p95ResponseTime = 50) := by
  constructor
  · intro results h
    have hn : 1 ≤ (sortedResponseTimes results).length := by
      rw [length_sortedResponseTimes]
      omega
    exact ⟨generateReport_ok results h, sortAsc_sorted _, sortAsc_perm _,
      pctIndex_lt (by norm_num) (by norm_num) hn,
      pctIndex_lt (by norm_num) (by norm_num) hn,
      pctIndex_lt (by norm_num) (by norm_num) hn, rfl, rfl, rfl⟩
  · refine ⟨?_, ?_, ?_⟩ <;> with_unfolding_all rfl

/-- C1 witness: the percentile-indexing theorem applied to the concrete
sample set `ex5`. -/
theorem percentile_rank_indexing_witness :
    generateReport ex5 = .ok (buildReport ex5) :=
  (percentile_rank_indexing.1 ex5 (by decide)).1

/-- C2: the summary's mean, min and max range over the successful subset
only, while totalRequests, successRate and errorRate range over all
samples; on 8 samples of `(200, 10ms)` plus 2 of `(500, 10ms)`:
totalRequests 10, successRate 80, errorRate 20, mean 10ms. -/
theorem summary_scope :
    (∀ results : List PerformanceMetric, 0 < (successfulRequests results).length →
      generateReport results = .ok (buildReport results) ∧
      (buildReport results).summary.totalRequests = results.length ∧
      (buildReport results).summary.successRate =
        ((successfulRequests results).length : ℚ) / (results.length : ℚ) * 100 ∧
      (buildReport results).summary.errorRate =
        ((results.length - (successfulRequests results).length : ℕ) : ℚ) /
          (results.length : ℚ) * 100 ∧
      (buildReport results).summary.averageResponseTime =
        sumQ ((successfulRequests results).map (·.responseTime)) /
          ((successfulRequests results).length : ℚ) ∧
      (buildReport results).summary.minResponseTime ∈
        (successfulRequests results).map (·.responseTime) ∧
      (∀ t ∈ (successfulRequests results).map (·.responseTime),
        (buildReport results).summary.minResponseTime ≤ t) ∧
      (buildReport results).summary.maxResponseTime ∈
        (successfulRequests results).map (·.responseTime) ∧
      (∀ t ∈ (successfulRequests results).map (·.responseTime),
        t ≤ (buildReport results).summary.maxResponseTime)) ∧
    ((buildReport ex10).summary.totalRequests = 10 ∧
      (buildReport ex10).summary.successRate = 80 ∧
      (buildReport ex10).summary.errorRate = 20 ∧
      (buildReport ex10).summary.averageResponseTime = 10) := by
  constructor
  · intro results h
    have hne : sortedResponseTimes results ≠ [] := by
      rw [← List.length_pos, length_sortedResponseTimes]
      omega
    refine ⟨generateReport_ok results h, rfl, rfl, rfl, ?_, ?_, ?_, ?_, ?_⟩
    · show sumQ (sortedResponseTimes results) /
        ((sortedResponseTimes results).length : ℚ) = _
      rw [sumQ_sortedResponseTimes, length_sortedResponseTimes]
    · exact mem_sortedResponseTimes.mp (listMin_mem hne)
    · intro t ht
      exact listMin_le t (mem_sortedResponseTimes.mpr ht)
    · exact mem_sortedResponseTimes.mp (listMax_mem hne)
    · intro t ht
      exact le_listMax t (mem_sortedResponseTimes.mpr ht)
  · refine ⟨?_, ?_, ?_, ?_⟩ <;> with_unfolding_all rfl

/-- C2 witness: the summary-scope theorem applied to the concrete sample set
`ex10`. -/
theorem summary_scope_witness :
    generateReport ex10 = .ok (buildReport ex10) ∧
    (buildReport ex10).summary.totalRequests = ex10.length :=
  ⟨(summary_scope.1 ex10 (by decide)).1, (summary_scope.1 ex10 (by decide)).2.1⟩

/-- C6: the endpoint breakdown groups all samples (successes and failures)
by the endpoint path alone; each group entry carries the group's request
count, its mean over all group samples, its nearest-rank p95 and its success
rate; and the per-group request counts sum to the total sample count. -/
theorem breakdown_grouping :
    (∀ results : List PerformanceMetric, 0 < (successfulRequests results).length →
      generateReport results = .ok (buildReport results)) ∧
    (∀ results : List PerformanceMetric,
      (buildReport results).endpointBreakdown.map Prod.fst = endpointKeys results ∧
      (∀ s : String, s ∈ endpointKeys results ↔ ∃ r ∈ results, r.endpoint = s) ∧
      (∀ (k : String) (st : EndpointStats),
        (k, st) ∈ (buildReport results).endpointBreakdown →
        st.requests = (endpointGroup results k).length ∧
        st.avgResponseTime =
          sumQ ((endpointGroup results k).map (·.responseTime)) /
            ((endpointGroup results k).length : ℚ) ∧
        st.p95ResponseTime =
          (sortAsc ((endpointGroup results k).map (·.responseTime))).getD
            (pctIndex (endpointGroup results k).length 0.95) 0 ∧
        st.successRate =
          (((endpointGroup results k).filter isSuccess).length : ℚ) /
            ((endpointGroup results k).length : ℚ) * 100) ∧
      ((buildReport results).endpointBreakdown.map fun p => p.2.requests).sum =
        results.length) := by
  constructor
  · intro results h
    exact generateReport_ok results h
  · intro results
    refine ⟨?_, fun s => mem_endpointKeys, ?_, ?_⟩
    · show ((endpointKeys results).map fun k =>
        (k, endpointStatsOf results k)).map Prod.fst = endpointKeys results
      rw [List.map_map]
      exact List.map_id _
    · intro k st hmem
      have hmem' : (k, st) ∈ (endpointKeys results).map fun k =>
          (k, endpointStatsOf results k) := hmem
      rw [List.mem_map] at hmem'
      obtain ⟨a, _, heq⟩ := hmem'
      rw [Prod.mk.injEq] at heq
      obtain ⟨hk, hst2⟩ := heq
      subst hk
      subst hst2
      refine ⟨rfl, ?_, ?_, rfl⟩
      · show sumQ (sortAsc ((endpointGroup results a).map (·.responseTime))) /
          ((sortAsc ((endpointGroup results a).map (·.responseTime))).length : ℚ) = _
        rw [sumQ_sortAsc, length_sortAsc, List.length_map]
      · show (sortAsc ((endpointGroup results a).map (·.responseTime))).getD
          (pctIndex
            (sortAsc ((endpointGroup results a).map (·.responseTime))).length 0.95) 0 = _
        rw [length_sortAsc, List.length_map]
    · have hcov : ∀ r ∈ results, r.endpoint ∈ endpointKeys results := fun r hr =>
        mem_endpointKeys.mpr ⟨r, hr, rfl⟩
      calc ((buildReport results).endpointBreakdown.map fun p => p.2.requests).sum
          = ((endpointKeys results).map fun k => (endpointGroup results k).length).sum := by
            show (((endpointKeys results).map fun k =>
              (k, endpointStatsOf results k)).map fun p => p.2.requests).sum = _
            rw [List.map_map]
            rfl
        _ = results.length :=
            sum_group_lengths (endpointKeys results) (endpointKeys_nodup results)
              results hcov

/-- C6 witness: the breakdown theorem applied to the concrete sample set
`ex10`: the report is produced and the group request counts sum to 10. -/
theorem breakdown_grouping_witness :
    generateReport ex10 = .ok (buildReport ex10) ∧
    ((buildReport ex10).endpointBreakdown.map fun p => p.2.requests).sum = ex10.length :=
  ⟨breakdown_grouping.1 ex10 (by decide), (breakdown_grouping.2 ex10).2.2.2⟩

/-- C10: whenever at least one sample is successful every percentile index
is in bounds (`floor(n * p) < n` for `n ≥ 1`), so the `|| 0` fallbacks never
fire and every reported percentile — summary p50/p95/p99 and each breakdown
group's p95 — is an actually observed response time. -/
theorem percentiles_are_observed :
    ∀ results : List PerformanceMetric, 0 < (successfulRequests results).length →
      generateReport results = .ok (buildReport results) ∧
      (buildReport results).summary.p50ResponseTime ∈
        (successfulRequests results).map (·.responseTime) ∧
      (buildReport results).summary.p95ResponseTime ∈
        (successfulRequests results).map (·.responseTime) ∧
      (buildReport results).summary.p99ResponseTime ∈
        (successfulRequests results).map (·.responseTime) ∧
      (∀ (k : String) (st : EndpointStats),
        (k, st) ∈ (buildReport results).endpointBreakdown →
        st.p95ResponseTime ∈ (endpointGroup results k).map (·.responseTime)) ∧
      (∀ n : ℕ, 1 ≤ n →
        pctIndex n 0.5 < n ∧ pctIndex n 0.95 < n ∧ pctIndex n 0.99 < n) := by
  intro results h
  have hn : 1 ≤ (sortedResponseTimes results).length := by
    rw [length_sortedResponseTimes]
    omega
  have hmem : ∀ p : ℚ, 0 ≤ p → p < 1 →
      (sortedResponseTimes results).getD
        (pctIndex (sortedResponseTimes results).length p) 0 ∈
        (successfulRequests results).map (·.responseTime) := by
    intro p hp0 hp1
    exact mem_sortedResponseTimes.mp (getD_mem (pctIndex_lt hp0 hp1 hn) 0)
  refine ⟨generateReport_ok results h,
    hmem 0.5 (by norm_num) (by norm_num),
    hmem 0.95 (by norm_num) (by norm_num),
    hmem 0.99 (by norm_num) (by norm_num), ?_, ?_⟩
  · intro k st hst
    have hst' : (k, st) ∈ (endpointKeys results).map fun k =>
        (k, endpointStatsOf results k) := hst
    rw [List.mem_map] at hst'
    obtain ⟨a, ha, heq⟩ := hst'
    rw [Prod.mk.injEq] at heq
    obtain ⟨hk, hst2⟩ := heq
    subst hk
    subst hst2
    have hpos : 0 < (endpointGroup results a).length := endpointGroup_length_pos ha
    have hlen : (sortAsc ((endpointGroup results a).map (·.responseTime))).length =
        (endpointGroup results a).length := by
      rw [length_sortAsc, List.length_map]
    have hidx : pctIndex
        (sortAsc ((endpointGroup results a).map (·.responseTime))).length 0.95 <
        (sortAsc ((endpointGroup results a).map (·.responseTime))).length := by
      refine pctIndex_lt (by norm_num) (by norm_num) ?_
      omega
    exact mem_sortAsc.mp (getD_mem hidx 0)
  · intro n hn1
    exact ⟨pctIndex_lt (by norm_num) (by norm_num) hn1,
      pctIndex_lt (by norm_num) (by norm_num) hn1,
      pctIndex_lt (by norm_num) (by norm_num) hn1⟩

/-- C10 witness: the observed-percentiles theorem applied to the concrete
sample set `ex5`. -/
theorem percentiles_are_observed_witness :
    (buildReport ex5).summary.p50ResponseTime ∈
      (successfulRequests ex5).map (·.responseTime) :=
  (percentiles_are_observed ex5 (by decide)).2.1

end PerfTest
